import Mathlib

/-!
Verification of the REVANX coming-soon signup backend.

The development shallowly embeds the JavaScript sources:
  * `server.js`   — Express server (`validateInput`, `stripHtml`, `storeInJsonFile`,
                    `sendEmail`, the `POST /subscribe` handler);
  * the Netlify function — same pipeline plus in-memory rate limiting
                    (`checkRateLimit`) and a lock-free JSON store that catches
                    its own errors;
  * `main.js` and the second client script — browser form-submit handlers with
    slightly different email regexes.

JavaScript untyped values are modelled by `JSVal` (no floats beyond integers and
no prototype machinery: none of the verified code paths depend on them).
Machine clock reads (`Date.now()`, `new Date().toISOString()`) and all I/O
outcomes (lock contention, write failures, provider errors, fetch results) are
passed as explicit parameters, so every function is a pure, executable Lean
definition.
-/

namespace Revanx

/-- Model of a JavaScript/JSON value as received by the handlers.  Numbers are
modelled as integers (the verified code never branches on fractional values). -/
inductive JSVal where
  | undefined
  | nullv
  | boolv (b : Bool)
  | numv (n : Int)
  | strv (s : String)
  | obj (fields : List (String × JSVal))

/-- JavaScript truthiness of a `JSVal` (`!!v`).  `undefined`, `null`, `false`,
`0` and `""` are falsy; objects are always truthy. -/
def truthy : JSVal → Bool
  | .undefined => false
  | .nullv => false
  | .boolv b => b
  | .numv n => n != 0
  | .strv s => s != ""
  | .obj _ => true

/-- `typeof v === 'object'`: true for `null` and for objects. -/
def isObjectType : JSVal → Bool
  | .nullv => true
  | .obj _ => true
  | _ => false

/-- Property access `v[k]`: field lookup on an object, `undefined` otherwise
(the embedded code only destructures values already checked to be objects). -/
def getField : JSVal → String → JSVal
  | .obj fields, k =>
    match fields.find? (fun p => p.1 == k) with
    | some p => p.2
    | none => .undefined
  | _, _ => .undefined

/-! ### String helpers mirroring the JavaScript string methods used -/

/-- The JavaScript `\s` character class (WhiteSpace plus LineTerminator). -/
def isJsSpace (c : Char) : Bool :=
  c == ' ' || c == '\t' || c == '\n' || c == '\r' ||
  c == Char.ofNat 11 || c == Char.ofNat 12 ||
  c == Char.ofNat 0xa0 || c == Char.ofNat 0x1680 ||
  (Char.ofNat 0x2000 ≤ c && c ≤ Char.ofNat 0x200a) ||
  c == Char.ofNat 0x2028 || c == Char.ofNat 0x2029 ||
  c == Char.ofNat 0x202f || c == Char.ofNat 0x205f ||
  c == Char.ofNat 0x3000 || c == Char.ofNat 0xfeff

/-- JavaScript `String.prototype.trim()`: strip leading and trailing
whitespace/line terminators. -/
def jsTrim (s : String) : String :=
  (((s.toList.dropWhile isJsSpace).reverse.dropWhile isJsSpace).reverse).asString

/-- JavaScript `String.prototype.toLowerCase()` restricted to ASCII letters
(the only case-carrying characters exercised by the embedded code). -/
def jsToLower (s : String) : String :=
  (s.toList.map Char.toLower).asString

/-- JavaScript `s.substring(0, n)`: the first `n` characters of `s`. -/
def jsTake (n : Nat) (s : String) : String :=
  (s.toList.take n).asString

/-! ### `stripHtml` — `str.replace(/<[^>]*>/g, '')` (`server.js` line 189)

The global regex removes, for every `<`, the span up to and including the next
`>`; a `<` with no later `>` is kept verbatim (the regex cannot match there).
The replacement is computed by a single left-to-right pass: `pending = some buf`
means we are inside a potential tag opened by `<` whose body so far is `buf`
(which never contains `>`); reaching the end without a closing `>` flushes the
`<` and the buffer unchanged, exactly as the regex leaves an unclosed span. -/
def stripHtmlGo : List Char → Option (List Char) → List Char
  | [], none => []
  | [], some buf => '<' :: buf
  | c :: r, none => if c = '<' then stripHtmlGo r (some []) else c :: stripHtmlGo r none
  | c :: r, some buf => if c = '>' then stripHtmlGo r none else stripHtmlGo r (some (buf ++ [c]))

/-- `stripHtml(str)` from `server.js` / the Netlify function. -/
def stripHtml (s : String) : String :=
  (stripHtmlGo s.toList none).asString

/-! ### The server-side email regex (`server.js` line 157)

`/^[a-zA-Z0-9.!#$%&'*+/=?^_`{|}~-]+@[a-zA-Z0-9](?:[a-zA-Z0-9-]{0,61}[a-zA-Z0-9])?(?:\.[a-zA-Z0-9](?:[a-zA-Z0-9-]{0,61}[a-zA-Z0-9])?)*$/`

Its language: `local @ label ( '.' label )*` where `local` is a nonempty string
over the listed character class (which excludes `@`, so the split at `@` is
unique), and each `label` is a string over letters, digits and `-` that starts
and ends alphanumeric and has length at most 63. -/
def isLocalChar (c : Char) : Bool :=
  c.isAlphanum || c == '.' || c == '!' || c == '#' || c == '$' || c == '%' ||
  c == '&' || c == Char.ofNat 39 || c == '*' || c == '+' || c == '/' ||
  c == '=' || c == '?' || c == '^' || c == '_' || c == Char.ofNat 96 ||
  c == Char.ofNat 123 || c == '|' || c == Char.ofNat 125 || c == '~' || c == '-'

/-- Split a character list at every occurrence of `sep` (like `String.split`). -/
def splitOnChar (sep : Char) : List Char → List (List Char)
  | [] => [[]]
  | d :: r =>
    match splitOnChar sep r with
    | [] => if d = sep then [[], []] else [[d]]
    | h :: t => if d = sep then [] :: h :: t else (d :: h) :: t

/-- One hostname label of the server email regex:
`[a-zA-Z0-9](?:[a-zA-Z0-9-]{0,61}[a-zA-Z0-9])?`. -/
def isLabel (l : List Char) : Bool :=
  match l with
  | [] => false
  | c :: rest =>
    c.isAlphanum && decide (rest.length ≤ 62) &&
    rest.all (fun d => d.isAlphanum || d == '-') &&
    (match rest.getLast? with
     | none => true
     | some d => d.isAlphanum)

/-- `emailRegex.test(cleanEmail)` from `validateInput`. -/
def emailRegexTest (s : String) : Bool :=
  match splitOnChar '@' s.toList with
  | [lp, dom] =>
    !lp.isEmpty && lp.all isLocalChar && (splitOnChar '.' dom).all isLabel
  | _ => false

/-! ### `validateInput` (`server.js` lines 145-183, identical in the Netlify function) -/

/-- The sanitized `data` object produced by a successful `validateInput`. -/
structure SData where
  name : Option String
  email : String
  consent : Bool
  timestamp : JSVal
  userAgent : Option String
  referrer : Option String

/-- Result of `validateInput`: a rejection with a message or sanitized data. -/
inductive VResult where
  | invalid (message : String)
  | valid (data : SData)

/-- Sanitization of the optional `userAgent`/`referrer` fields:
`field ? stripHtml(field.substring(0, 500)) : null`.  A truthy non-string value
has no `.substring` method, so the JavaScript expression throws a `TypeError`,
modelled as `.error ()`. -/
def optCapped (v : JSVal) : Except Unit (Option String) :=
  if truthy v then
    match v with
    | .strv s => .ok (some (stripHtml (jsTake 500 s)))
    | _ => .error ()
  else .ok none

/-- Sanitization of the optional `name` field:
`name ? stripHtml(name.trim()).substring(0, 100) : null`; a truthy non-string
`name` has no `.trim` method (`TypeError`, modelled as `.error ()`). -/
def optName (v : JSVal) : Except Unit (Option String) :=
  if truthy v then
    match v with
    | .strv s => .ok (some (jsTake 100 (stripHtml (jsTrim s))))
    | _ => .error ()
  else .ok none

/-- `validateInput(body)`.  `now` stands for `new Date().toISOString()`, read
when `timestamp` is falsy.  `.error ()` models a thrown `TypeError` (which the
callers' `try`/`catch` turns into a generic 500). -/
def validateInput (now : String) (body : JSVal) : Except Unit VResult :=
  if !(truthy body && isObjectType body) then .ok (.invalid "Invalid request body")
  else
    match getField body "email" with
    | .strv s =>
      if s = "" then .ok (.invalid "Email is required")
      else
        let cleanEmail := jsToLower (jsTrim s)
        if !emailRegexTest cleanEmail then .ok (.invalid "Invalid email format")
        else if !truthy (getField body "consent") then .ok (.invalid "Consent is required")
        else
          match optName (getField body "name") with
          | .error u => .error u
          | .ok nm =>
            match optCapped (getField body "userAgent") with
            | .error u => .error u
            | .ok ua =>
              match optCapped (getField body "referrer") with
              | .error u => .error u
              | .ok rf =>
                let ts := getField body "timestamp"
                .ok (.valid ⟨nm, cleanEmail, truthy (getField body "consent"),
                  if truthy ts then ts else .strv now, ua, rf⟩)
    | _ => .ok (.invalid "Email is required")

/-! ### Rate limiter (`checkRateLimit`, Netlify function lines 164-191)

The in-memory `rateLimitMap` is modelled as an association list from source
address to the ordered list of recorded timestamps (`Map` iteration and
insertion order are preserved by the list order). -/

/-- `config.rateLimitWindow`: 15 minutes in milliseconds. -/
def windowMs : Int := 15 * 60 * 1000

/-- `config.rateLimitMax`: at most 5 submissions per address per window. -/
def rateLimitMax : Nat := 5

/-- The rate limiter's state: `rateLimitMap` as an association list. -/
abbrev RLState := List (String × List Int)

/-- `rateLimitMap.get(ip) || []`. -/
def rlLookup (st : RLState) (ip : String) : List Int :=
  match st.find? (fun p => p.1 == ip) with
  | some p => p.2
  | none => []

/-- `rateLimitMap.set(ip, v)`: update the entry in place, or append a new one. -/
def setAssoc (st : RLState) (ip : String) (v : List Int) : RLState :=
  match st with
  | [] => [(ip, v)]
  | (k, w) :: r => if k = ip then (ip, v) :: r else (k, w) :: setAssoc r ip v

/-- The cleaning loop of `checkRateLimit`: every entry's timestamps are
filtered to those newer than `windowStart`; entries left empty are deleted. -/
def pruneRL (windowStart : Int) (st : RLState) : RLState :=
  (st.map (fun p => (p.1, p.2.filter (fun t => windowStart < t)))).filter
    (fun p => !p.2.isEmpty)

/-- `checkRateLimit(ip)` with `now = Date.now()`: prune all entries, then
reject if the address already has `rateLimitMax` recent timestamps, else record
`now`.  Returns the verdict together with the updated map. -/
def checkRateLimit (now : Int) (ip : String) (st : RLState) : Bool × RLState :=
  let windowStart := now - windowMs
  let pruned := pruneRL windowStart st
  let recent := (rlLookup pruned ip).filter (fun t => windowStart < t)
  if rateLimitMax ≤ recent.length then (false, pruned)
  else (true, setAssoc pruned ip (recent ++ [now]))

/-- Run `checkRateLimit` for one address at each time in `times`, collecting
the verdicts. -/
def runAllow (ip : String) : List Int → RLState → List Bool × RLState
  | [], st => ([], st)
  | t :: ts, st =>
    let r := checkRateLimit t ip st
    let rest := runAllow ip ts r.2
    (r.1 :: rest.1, rest.2)

/-! ### Signup records and the JSON stores -/

/-- The `signup` record built by the handlers (`server.js` lines 81-91). -/
structure Signup where
  id : String
  name : Option String
  email : String
  consent : Bool
  timestamp : JSVal
  userAgent : Option String
  referrer : Option String
  ip : String
  createdAt : String

/-- Contents of `signups.json`: absent, unparsable, or a parsed array. -/
inductive FileContent where
  | absent
  | corrupt
  | data (signups : List Signup)

/-- Reading the store: an absent or unparsable file is treated as the empty
array (`server.js` lines 244-250). -/
def parseSignups : FileContent → List Signup
  | .data l => l
  | _ => []

/-- Environment outcomes for one Express `storeInJsonFile` call: whether the
lock-file creation fails at each retry attempt (it fails when the lock is held
by another process, among other I/O reasons), and whether `mkdir`/`writeFile`
fail after acquisition. -/
structure StoreEnv where
  lockBusy : Nat → Bool
  mkdirFails : Bool
  writeFails : Bool

/-- Result of the Express `storeInJsonFile`: normal return, the thrown
`Could not acquire file lock` error, or a propagated I/O error. -/
inductive StoreResult where
  | success
  | lockTimeout
  | ioError
deriving DecidableEq

/-- `storeInJsonFile(signup)` from `server.js` (lines 214-267): try to create
the lock file for up to 10 attempts; on failure throw the lock-timeout error;
once locked, `mkdir` the data directory, read the existing array (absent or
unparsable means empty), append the record and rewrite the file; the lock is
released in `finally` regardless.  The file is changed only by a successful
rewrite. -/
def storeInJsonFile (env : StoreEnv) (sg : Signup) (fs : FileContent) :
    StoreResult × FileContent :=
  if (List.range 10).any (fun i => !env.lockBusy i) then
    if env.mkdirFails then (.ioError, fs)
    else if env.writeFails then (.ioError, fs)
    else (.success, .data (parseSignups fs ++ [sg]))
  else (.lockTimeout, fs)

/-- `storeInJsonFile(signup)` from the Netlify function (lines 265-291): no
lock; the whole body is wrapped in `try`/`catch`, and any error is logged and
swallowed, so the function always returns normally — on a write failure the
record is simply not stored. -/
def storeInJsonFileNetlify (writeFails : Bool) (sg : Signup) (fs : FileContent) :
    FileContent :=
  if writeFails then fs else .data (parseSignups fs ++ [sg])

/-! ### Notifier (`sendEmail`, `server.js` lines 355-374) -/

/-- The configuration object relevant to the embedded paths. -/
structure Config where
  emailProvider : String
  isDryRun : Bool
  storageMode : String

/-- Observable outcome of one `sendEmail` call: whether an error propagated to
the caller and whether a provider transmission was attempted. -/
structure EmailResult where
  failed : Bool
  transmitted : Bool

/-- `sendEmail({to, subject, html})`: in dry-run mode (no provider credential)
log and return without transmitting; otherwise delegate to the provider inside
a `try`/`catch` whose handler logs and deliberately does not rethrow.
`providerResult` is the outcome of the provider's `send` call. -/
def sendEmail (cfg : Config) (providerResult : Except String Unit) : EmailResult :=
  if cfg.isDryRun then { failed := false, transmitted := false }
  else
    match (if cfg.emailProvider = "resend" then providerResult
           else .error "Email provider not implemented") with
    | .ok _ => { failed := false, transmitted := true }
    | .error _ => { failed := false, transmitted := false }

/-! ### Request handlers -/

/-- HTTP response produced by a handler: status code, optional JSON body
`(success, message)` (empty body for `OPTIONS` preflight), and the number of
`sendEmail` calls performed. -/
structure HandlerOut where
  status : Nat
  body : Option (Bool × String)
  emailCalls : Nat
deriving DecidableEq

/-- The generic 500 message. -/
def genericErrorMsg : String := "Internal server error. Please try again later."

/-- The success message. -/
def subscribeOkMsg : String := "Successfully subscribed! Check your email for confirmation."

/-- The rate-limit rejection message. -/
def rateLimitMsg : String := "Too many requests. Please try again later."

/-- Building the stored record from sanitized data (`server.js` lines 81-91):
note `name: name || null` turns an empty sanitized name back into `null`. -/
def mkSignup (d : SData) (id ip createdAt : String) : Signup :=
  { id := id
    name := match d.name with
            | some s => if s = "" then none else some s
            | none => none
    email := d.email
    consent := d.consent
    timestamp := d.timestamp
    userAgent := d.userAgent
    referrer := d.referrer
    ip := ip
    createdAt := createdAt }

/-- `storeSignup` from `server.js`: delegate to the JSON store when
`storageMode` is `json`, otherwise only log the record. -/
def storeSignupExpress (cfg : Config) (env : StoreEnv) (sg : Signup)
    (fs : FileContent) : StoreResult × FileContent :=
  if cfg.storageMode = "json" then storeInJsonFile env sg fs
  else (.success, fs)

/-- The Express `POST /subscribe` handler (`server.js` lines 64-117).  Rate
limiting is middleware outside this body.  `o1`/`o2` are the provider outcomes
for the admin-notification and user-confirmation emails; `now` is the ISO
timestamp read during validation; any exception (a validator `TypeError`, a
store error) reaches the surrounding `catch` and yields the generic 500. -/
def expressSubscribe (cfg : Config) (senv : StoreEnv)
    (o1 o2 : Except String Unit) (ip id createdAt now : String)
    (body : JSVal) (fs : FileContent) : HandlerOut × FileContent :=
  match validateInput now body with
  | .error _ => (⟨500, some (false, genericErrorMsg), 0⟩, fs)
  | .ok (.invalid m) => (⟨400, some (false, m), 0⟩, fs)
  | .ok (.valid d) =>
    let sg := mkSignup d id ip createdAt
    match storeSignupExpress cfg senv sg fs with
    | (.success, fs') =>
      let e1 := sendEmail cfg o1
      if e1.failed then (⟨500, some (false, genericErrorMsg), 1⟩, fs')
      else if cfg.isDryRun then (⟨200, some (true, subscribeOkMsg), 1⟩, fs')
      else
        let e2 := sendEmail cfg o2
        if e2.failed then (⟨500, some (false, genericErrorMsg), 2⟩, fs')
        else (⟨200, some (true, subscribeOkMsg), 2⟩, fs')
    | (_, fs') => (⟨500, some (false, genericErrorMsg), 0⟩, fs')

/-- The Netlify `exports.handler` (Netlify function lines 28-149):
CORS preflight, method check, rate limit, JSON parse (`rawBody = none` models
a parse failure), validation, store (which cannot throw), then the two emails.
Returns the response together with the updated rate-limit map and file. -/
def netlifyHandler (cfg : Config) (writeFails : Bool)
    (o1 o2 : Except String Unit) (httpMethod ip : String) (now : Int)
    (nowIso id createdAt : String) (rawBody : Option JSVal)
    (rl : RLState) (fs : FileContent) : HandlerOut × RLState × FileContent :=
  if httpMethod = "OPTIONS" then (⟨200, none, 0⟩, rl, fs)
  else if httpMethod ≠ "POST" then (⟨405, some (false, "Method not allowed"), 0⟩, rl, fs)
  else
    let rlr := checkRateLimit now ip rl
    if !rlr.1 then (⟨429, some (false, rateLimitMsg), 0⟩, rlr.2, fs)
    else
      match rawBody with
      | none => (⟨400, some (false, "Invalid JSON in request body"), 0⟩, rlr.2, fs)
      | some body =>
        match validateInput nowIso body with
        | .error _ => (⟨500, some (false, genericErrorMsg), 0⟩, rlr.2, fs)
        | .ok (.invalid m) => (⟨400, some (false, m), 0⟩, rlr.2, fs)
        | .ok (.valid d) =>
          let sg := mkSignup d id ip createdAt
          let fs' := if cfg.storageMode = "json" then storeInJsonFileNetlify writeFails sg fs
                     else fs
          let e1 := sendEmail cfg o1
          if e1.failed then (⟨500, some (false, genericErrorMsg), 1⟩, rlr.2, fs')
          else if cfg.isDryRun then (⟨200, some (true, subscribeOkMsg), 1⟩, rlr.2, fs')
          else
            let e2 := sendEmail cfg o2
            if e2.failed then (⟨500, some (false, genericErrorMsg), 2⟩, rlr.2, fs')
            else (⟨200, some (true, subscribeOkMsg), 2⟩, rlr.2, fs')

/-! ### Client scripts (`main.js` and the second client script)

Both submit handlers are identical up to the email regex:
  * `main.js` line 103: `/^[^\s@]+@[^\s@]+.[^\s@]+$/` — the dot is an
    *unescaped* wildcard matching any character except a line terminator;
  * the other script line 72: `/^[^\s@]+@[^\s@]+\.[^\s@]+$/` — a literal dot.

Both regexes are anchored and their `[^\s@]+` atoms cannot contain `@`, so a
match fixes the split at the string's first `@`; the tail after it must
decompose as `nonempty-run · one-char · nonempty-run` where the runs avoid
whitespace and `@` and the middle character satisfies the regex's middle atom
(any non-line-terminator for `main.js`, a literal `.` for the other script). -/

/-- ECMAScript LineTerminator characters (what an unescaped `.` cannot match). -/
def isLineTerm (c : Char) : Bool :=
  c == '\n' || c == '\r' || c == Char.ofNat 0x2028 || c == Char.ofNat 0x2029

/-- A character matched by `[^\s@]`. -/
def isPartChar (c : Char) : Bool := !isJsSpace c && !(c == '@')

/-- Split a string at its first `@`, if any. -/
def splitAtFirstAt (s : String) : Option (List Char × List Char) :=
  let l := s.toList
  let pre := l.takeWhile (fun c => !(c == '@'))
  match l.drop pre.length with
  | '@' :: rest => some (pre, rest)
  | _ => none

/-- Match `[^\s@]+ mid [^\s@]+ $` against `r`, where the middle single
character must satisfy `mid`: some index `i ≥ 1` splits `r` into a nonempty
`[^\s@]` run, one `mid` character, and a nonempty `[^\s@]` run. -/
def tailMatch (mid : Char → Bool) (r : List Char) : Bool :=
  (List.range r.length).any (fun i =>
    decide (1 ≤ i) && (r.take i).all isPartChar &&
    (match r.get? i with
     | some c => mid c
     | none => false) &&
    decide (i + 1 < r.length) && (r.drop (i + 1)).all isPartChar)

/-- `isValidEmail` from `main.js`: `/^[^\s@]+@[^\s@]+.[^\s@]+$/.test(email)`
(unescaped dot). -/
def isValidEmail (s : String) : Bool :=
  match splitAtFirstAt s with
  | some (pre, rest) =>
    !pre.isEmpty && pre.all isPartChar && tailMatch (fun c => !isLineTerm c) rest
  | none => false

/-- `emailOk` from the second client script:
`/^[^\s@]+@[^\s@]+\.[^\s@]+$/.test(email)` (escaped, literal dot). -/
def emailOk (s : String) : Bool :=
  match splitAtFirstAt s with
  | some (pre, rest) =>
    !pre.isEmpty && pre.all isPartChar && tailMatch (fun c => c == '.') rest
  | none => false

/-- Observable DOM/network actions of the client submit handler, in order. -/
inductive CEvent where
  | statusMsg (msg : String)
  | focusEmail
  | focusConsent
  | scrollStatus
  | fetchStart
  | lockFormEv
deriving DecidableEq

/-- The hard-coded webhook endpoint (`N8N_WEBHOOK_URL`). -/
def webhookUrl : String :=
  "https://primary-production-04c0.up.railway.app/webhook/revanx-signup"

/-- The success text shown before the fetch is initiated. -/
def clientSuccessText : String := "All set! The email has been sent to this address."

/-- Outcome of the webhook `fetch`: an ok response carrying an optional parsed
`message`, a non-ok response, a thrown network error, or no settlement at all
(the promise never resolves). -/
inductive FetchOutcome where
  | okResp (message : Option String)
  | badResp
  | netError
  | noResponse

/-- Events of the submit handler after the fetch settles (`main.js`
lines 152-165); a never-settling fetch produces nothing further. -/
def afterFetch : FetchOutcome → List CEvent
  | .okResp p =>
    [.statusMsg (match p with
        | some m => if m = "" then "✅ Thanks! Check your email for a welcome message." else m
        | none => "✅ Thanks! Check your email for a welcome message."),
     .lockFormEv]
  | .badResp => [.statusMsg "Thanks! If the email does not arrive, please try again later."]
  | .netError => [.statusMsg "Thanks! If the email does not arrive, please try again later."]
  | .noResponse => []

/-- The `main.js` form submit handler (lines 89-171) as its ordered list of
observable actions: validate the trimmed email with the client regex, check
consent, check the webhook URL constant, show the success text, scroll, then
start the fetch and react to its outcome. -/
def clientSubmit (emailRaw : String) (consentChecked : Bool)
    (o : FetchOutcome) : List CEvent :=
  let email := jsTrim emailRaw
  if !isValidEmail email then
    [.statusMsg "Please enter a valid email address (e.g., name@domain.com).", .focusEmail]
  else if !consentChecked then
    [.statusMsg "Please agree to receive updates.", .focusConsent]
  else if webhookUrl = "" then
    [.statusMsg "Almost ready! Please provide the n8n Webhook URL."]
  else
    [.statusMsg clientSuccessText, .scrollStatus, .fetchStart] ++ afterFetch o

/-! ### Derived predicates and concrete values used by the verification -/

/-- A `JSVal` that is either falsy or a string — the shapes of the optional
fields on which the sanitizers cannot raise a `TypeError`. -/
def strOrFalsy (v : JSVal) : Prop := truthy v = false ∨ ∃ s, v = .strv s

/-- No complete tag span: no `<` in the list is followed (anywhere later) by a
`>`.  This is the invariant `stripHtml` establishes; stray `<` or `>`
fragments on their own are allowed by it. -/
def noTag : List Char → Bool
  | [] => true
  | c :: r => (if c = '<' then !(r.any (fun d => d == '>')) else true) && noTag r

/-- A concrete signup record used by witnesses and counterexamples. -/
def sgA : Signup :=
  ⟨"id1", some "Ada", "ada@example.com", true, .strv "T0", none, none, "1.2.3.4", "CT"⟩

/-- An environment where every store operation succeeds at once. -/
def envOk : StoreEnv := ⟨fun _ => false, false, false⟩

/-- The concrete Ada payload `{"name":"Ada","email":"ADA@Example.COM","consent":true}`. -/
def adaBody : JSVal :=
  .obj [("name", .strv "Ada"), ("email", .strv "ADA@Example.COM"), ("consent", .boolv true)]

/-- A dry-run configuration with JSON storage (the defaults with no
`EMAIL_API_KEY` set). -/
def cfgDry : Config := ⟨"resend", true, "json"⟩

/-! ## Theorems -/

/-- C2: the validator applies its rules in order with the first failure
winning: a non-truthy or non-object body is rejected with "Invalid request
body"; then a missing, non-string or empty-string email with "Email is
required"; then a trimmed, lower-cased email failing the address grammar with
"Invalid email format"; then a falsy consent with "Consent is required"; and
any body yielding a sanitized record passed all four checks. -/
theorem C2_validator_first_failure_wins (now : String) (body : JSVal) :
    (¬ (truthy body = true ∧ isObjectType body = true) →
       validateInput now body = .ok (.invalid "Invalid request body"))
  ∧ (truthy body = true → isObjectType body = true →
       (∀ s, getField body "email" = .strv s → s = "") →
       validateInput now body = .ok (.invalid "Email is required"))
  ∧ (∀ s, truthy body = true → isObjectType body = true →
       getField body "email" = .strv s → s ≠ "" →
       emailRegexTest (jsToLower (jsTrim s)) = false →
       validateInput now body = .ok (.invalid "Invalid email format"))
  ∧ (∀ s, truthy body = true → isObjectType body = true →
       getField body "email" = .strv s → s ≠ "" →
       emailRegexTest (jsToLower (jsTrim s)) = true →
       truthy (getField body "consent") = false →
       validateInput now body = .ok (.invalid "Consent is required"))
  ∧ (∀ d, validateInput now body = .ok (.valid d) →
       truthy body = true ∧ isObjectType body = true ∧
       ∃ s, getField body "email" = .strv s ∧ s ≠ "" ∧
         emailRegexTest (jsToLower (jsTrim s)) = true ∧
         truthy (getField body "consent") = true) := by
  refine ⟨?_, ?_, ?_, ?_, ?_⟩
  · intro h
    have hb : (truthy body && isObjectType body) = false := by
      cases hT : truthy body <;> cases hO : isObjectType body <;> simp_all
    simp [validateInput, hb]
  · intro hT hO h
    cases hE : getField body "email" with
    | strv s =>
      have hs := h s hE
      subst hs
      simp [validateInput, hT, hO, hE]
    | undefined => simp [validateInput, hT, hO, hE]
    | nullv => simp [validateInput, hT, hO, hE]
    | boolv b => simp [validateInput, hT, hO, hE]
    | numv n => simp [validateInput, hT, hO, hE]
    | obj fields => simp [validateInput, hT, hO, hE]
  · intro s hT hO hE hs hreg
    simp [validateInput, hT, hO, hE, hs, hreg]
  · intro s hT hO hE hs hreg hc
    simp [validateInput, hT, hO, hE, hs, hreg, hc]
  · intro d hd
    by_cases hT : truthy body = true
    · by_cases hO : isObjectType body = true
      · refine ⟨hT, hO, ?_⟩
        cases hE : getField body "email" with
        | strv s =>
          by_cases hs : s = ""
          · subst hs; simp [validateInput, hT, hO, hE] at hd
          · cases hreg : emailRegexTest (jsToLower (jsTrim s)) with
            | true =>
              cases hc : truthy (getField body "consent") with
              | true => exact ⟨s, rfl, hs, hreg, rfl⟩
              | false => simp [validateInput, hT, hO, hE, hs, hreg, hc] at hd
            | false => simp [validateInput, hT, hO, hE, hs, hreg] at hd
        | undefined => simp [validateInput, hT, hO, hE] at hd
        | nullv => simp [validateInput, hT, hO, hE] at hd
        | boolv b => simp [validateInput, hT, hO, hE] at hd
        | numv n => simp [validateInput, hT, hO, hE] at hd
        | obj fields => simp [validateInput, hT, hO, hE] at hd
      · have hb : (truthy body && isObjectType body) = false := by
          simp_all
        simp [validateInput, hb] at hd
    · have hb : (truthy body && isObjectType body) = false := by
        simp_all
      simp [validateInput, hb] at hd

/-- Witness for C2: the concrete rejected payload
`{"email":"not-an-email","consent":true}` gets "Invalid email format". -/
theorem C2_witness :
    validateInput "T" (JSVal.obj [("email", .strv "not-an-email"), ("consent", .boolv true)]) =
      .ok (.invalid "Invalid email format") :=
  ((C2_validator_first_failure_wins "T"
      (JSVal.obj [("email", .strv "not-an-email"), ("consent", .boolv true)])).2.2.1)
    "not-an-email" (by decide) (by decide) rfl (by decide) (by decide)

/-! ### C5: totality of the validator -/

/-- `optName` returns normally on falsy-or-string input. -/
theorem optName_ok (v : JSVal) (h : strOrFalsy v) : ∃ o, optName v = .ok o := by
  rcases h with h | ⟨s, rfl⟩
  · exact ⟨none, by simp [optName, h]⟩
  · cases ht : truthy (JSVal.strv s) with
    | true => exact ⟨some (jsTake 100 (stripHtml (jsTrim s))), by simp [optName, ht]⟩
    | false => exact ⟨none, by simp [optName, ht]⟩

/-- `optCapped` returns normally on falsy-or-string input. -/
theorem optCapped_ok (v : JSVal) (h : strOrFalsy v) : ∃ o, optCapped v = .ok o := by
  rcases h with h | ⟨s, rfl⟩
  · exact ⟨none, by simp [optCapped, h]⟩
  · cases ht : truthy (JSVal.strv s) with
    | true => exact ⟨some (stripHtml (jsTake 500 s)), by simp [optCapped, ht]⟩
    | false => exact ⟨none, by simp [optCapped, ht]⟩

/-- C5 (amended): the validator is total — it returns a sanitized record or a
rejection, never a thrown error — on every body whose `name`, `userAgent` and
`referrer` fields are each falsy or strings; a truthy non-string value in one
of those fields makes the original code throw a `TypeError`
(see `C5_counterexample`). -/
theorem C5_amended_validator_total (now : String) (body : JSVal)
    (h1 : strOrFalsy (getField body "name"))
    (h2 : strOrFalsy (getField body "userAgent"))
    (h3 : strOrFalsy (getField body "referrer")) :
    ∃ r, validateInput now body = .ok r := by
  by_cases hb : (truthy body && isObjectType body) = true
  · cases hE : getField body "email" with
    | strv s =>
      by_cases hs : s = ""
      · subst hs; exact ⟨.invalid "Email is required", by simp [validateInput, hb, hE]⟩
      · cases hreg : emailRegexTest (jsToLower (jsTrim s)) with
        | false =>
          exact ⟨.invalid "Invalid email format", by simp [validateInput, hb, hE, hs, hreg]⟩
        | true =>
          cases hc : truthy (getField body "consent") with
          | false =>
            exact ⟨.invalid "Consent is required", by simp [validateInput, hb, hE, hs, hreg, hc]⟩
          | true =>
            obtain ⟨o1, e1⟩ := optName_ok _ h1
            obtain ⟨o2, e2⟩ := optCapped_ok _ h2
            obtain ⟨o3, e3⟩ := optCapped_ok _ h3
            refine ⟨.valid ⟨o1, jsToLower (jsTrim s), true,
              (if truthy (getField body "timestamp") then getField body "timestamp"
               else .strv now), o2, o3⟩, ?_⟩
            simp only [validateInput, hb, hE, hs, hreg, hc, e1, e2, e3, Bool.and_self,
              Bool.not_true, Bool.false_eq_true, if_false, ite_false, ite_true]
    | undefined => exact ⟨.invalid "Email is required", by simp [validateInput, hb, hE]⟩
    | nullv => exact ⟨.invalid "Email is required", by simp [validateInput, hb, hE]⟩
    | boolv b => exact ⟨.invalid "Email is required", by simp [validateInput, hb, hE]⟩
    | numv n => exact ⟨.invalid "Email is required", by simp [validateInput, hb, hE]⟩
    | obj fields => exact ⟨.invalid "Email is required", by simp [validateInput, hb, hE]⟩
  · have hb' : (truthy body && isObjectType body) = false := by
      cases h : (truthy body && isObjectType body) with
      | true => exact absurd h hb
      | false => rfl
    exact ⟨.invalid "Invalid request body", by simp [validateInput, hb']⟩

/-- Witness for C5 (amended): the Ada body has falsy-or-string optional fields
and the validator returns normally on it. -/
theorem C5_witness :
    ∃ r, validateInput "T" (JSVal.obj [("name", .strv "Ada"),
      ("email", .strv "ADA@Example.COM"), ("consent", .boolv true)]) = .ok r :=
  C5_amended_validator_total "T"
    (JSVal.obj [("name", .strv "Ada"), ("email", .strv "ADA@Example.COM"),
      ("consent", .boolv true)])
    (Or.inr ⟨"Ada", rfl⟩) (Or.inl rfl) (Or.inl rfl)

/-- Counterexample to C5 as stated: on the body
`{"email":"a@b.co","consent":true,"userAgent":7}` — whose `userAgent` is a
truthy non-string — the validator throws (`7..substring` is not a function)
instead of returning a rejection or a record. -/
theorem C5_counterexample :
    validateInput "T" (JSVal.obj [("email", .strv "a@b.co"), ("consent", .boolv true),
      ("userAgent", .numv 7)]) = .error () := by rfl

/-! ### C4: what `stripHtml` actually guarantees -/

/-- A list without `>` characters trivially has no complete tag span. -/
theorem noTag_of_no_gt (l : List Char) (h : ∀ d ∈ l, d ≠ '>') : noTag l = true := by
  induction l with
  | nil => rfl
  | cons c r ih =>
    have hr : noTag r = true := ih (fun d hd => h d (List.mem_cons_of_mem _ hd))
    by_cases hc : c = '<'
    · have : r.any (fun d => d == '>') = false := by
        simp only [List.any_eq_false]
        intro d hd
        simpa using h d (List.mem_cons_of_mem _ hd)
      simp [noTag, hc, this, hr]
    · simp [noTag, hc, hr]

/-- The single pass of `stripHtml` yields a tag-free result, whichever mode it
starts in (for pending buffers that contain no `>`). -/
theorem noTag_stripHtmlGo (l : List Char) :
    (∀ buf, (∀ d ∈ buf, d ≠ '>') → noTag (stripHtmlGo l (some buf)) = true) ∧
    noTag (stripHtmlGo l none) = true := by
  induction l with
  | nil =>
    refine ⟨fun buf h => ?_, rfl⟩
    have hany : buf.any (fun d => d == '>') = false := by
      simp only [List.any_eq_false]
      intro d hd
      simpa using h d hd
    simp [stripHtmlGo, noTag, hany, noTag_of_no_gt buf h]
  | cons c r ih =>
    constructor
    · intro buf h
      by_cases hc : c = '>'
      · simpa [stripHtmlGo, hc] using ih.2
      · have h' : ∀ d ∈ buf ++ [c], d ≠ '>' := by
          intro d hd
          rcases List.mem_append.mp hd with hd | hd
          · exact h d hd
          · simp only [List.mem_singleton] at hd
            exact hd ▸ hc
        simpa [stripHtmlGo, hc] using ih.1 (buf ++ [c]) h'
    · by_cases hc : c = '<'
      · simpa [stripHtmlGo, hc] using ih.1 [] (by intro d hd; cases hd)
      · have := ih.2
        simp [stripHtmlGo, hc, noTag, this]

/-- Truncation preserves tag-freeness. -/
theorem noTag_take (l : List Char) (n : Nat) (h : noTag l = true) :
    noTag (l.take n) = true := by
  induction l generalizing n with
  | nil => simp [noTag]
  | cons c r ih =>
    cases n with
    | zero => rfl
    | succ m =>
      simp only [List.take_succ_cons]
      simp only [noTag, Bool.and_eq_true] at h
      have hr := ih m h.2
      by_cases hc : c = '<'
      · have hany : (r.take m).any (fun d => d == '>') = false := by
          rcases hA : (r.take m).any (fun d => d == '>') with _ | _
          · rfl
          · exfalso
            obtain ⟨d, hd, hdq⟩ := List.any_eq_true.mp hA
            have : r.any (fun d => d == '>') = true :=
              List.any_eq_true.mpr ⟨d, (List.take_sublist m r).subset hd, hdq⟩
            simp [hc, this] at h
        simp [noTag, hc, hany, hr]
      · simp [noTag, hc, hr]

/-- The string form of the invariant: `stripHtml` output, also after
truncation, never contains a complete tag span. -/
theorem noTag_stripHtml (s : String) : noTag (stripHtml s).toList = true := by
  simpa [stripHtml, List.toList_asString] using (noTag_stripHtmlGo s.toList).2

/-- `optName`'s sanitization (strip, then truncate to 100) is tag-free. -/
theorem optName_noTag (v : JSVal) (o : Option String) (h : optName v = .ok o) :
    ∀ s, o = some s → noTag s.toList = true := by
  intro s hso
  subst hso
  unfold optName at h
  by_cases ht : truthy v = true
  · cases v with
    | strv t =>
      simp only [ht, if_true, Except.ok.injEq, Option.some.injEq] at h
      subst h
      simpa [jsTake, List.toList_asString] using
        noTag_take (stripHtml (jsTrim t)).toList 100 (noTag_stripHtml (jsTrim t))
    | undefined => simp [ht] at h
    | nullv => simp [ht] at h
    | boolv b => simp [ht] at h
    | numv n => simp [ht] at h
    | obj fields => simp [ht] at h
  · simp only [ht, if_false] at h
    cases h

/-- `optCapped`'s sanitization (truncate to 500, then strip) is tag-free. -/
theorem optCapped_noTag (v : JSVal) (o : Option String) (h : optCapped v = .ok o) :
    ∀ s, o = some s → noTag s.toList = true := by
  intro s hso
  subst hso
  unfold optCapped at h
  by_cases ht : truthy v = true
  · cases v with
    | strv t =>
      simp only [ht, if_true, Except.ok.injEq, Option.some.injEq] at h
      subst h
      exact noTag_stripHtml (jsTake 500 t)
    | undefined => simp [ht] at h
    | nullv => simp [ht] at h
    | boolv b => simp [ht] at h
    | numv n => simp [ht] at h
    | obj fields => simp [ht] at h
  · simp only [ht, if_false] at h
    cases h

/-- C4 (amended): for every input accepted by the validator, the sanitized
`name`, `userAgent` and `referrer` values contain no complete HTML tag — no
`<` in a stored value is ever followed by a `>` — but a stray `<` or `>`
fragment can survive (truncation before stripping, and `<` without a closing
`>`, are both left in place; see `C4_counterexample`). -/
theorem C4_amended_no_complete_tag (now : String) (body : JSVal) (d : SData)
    (hd : validateInput now body = .ok (.valid d)) :
    (∀ s, d.name = some s → noTag s.toList = true)
  ∧ (∀ s, d.userAgent = some s → noTag s.toList = true)
  ∧ (∀ s, d.referrer = some s → noTag s.toList = true) := by
  by_cases hb : (truthy body && isObjectType body) = true
  · cases hE : getField body "email" with
    | strv s =>
      by_cases hs : s = ""
      · subst hs; simp [validateInput, hb, hE] at hd
      · cases hreg : emailRegexTest (jsToLower (jsTrim s)) with
        | false => simp [validateInput, hb, hE, hs, hreg] at hd
        | true =>
          cases hc : truthy (getField body "consent") with
          | false => simp [validateInput, hb, hE, hs, hreg, hc] at hd
          | true =>
            cases e1 : optName (getField body "name") with
            | error u => simp [validateInput, hb, hE, hs, hreg, hc, e1] at hd
            | ok o1 =>
              cases e2 : optCapped (getField body "userAgent") with
              | error u => simp [validateInput, hb, hE, hs, hreg, hc, e1, e2] at hd
              | ok o2 =>
                cases e3 : optCapped (getField body "referrer") with
                | error u => simp [validateInput, hb, hE, hs, hreg, hc, e1, e2, e3] at hd
                | ok o3 =>
                  simp only [validateInput, hb, hE, hs, hreg, hc, e1, e2, e3,
                    Bool.and_self, Bool.not_true, Bool.false_eq_true, if_false,
                    ite_false, ite_true] at hd
                  have hshape : (⟨o1, jsToLower (jsTrim s), true,
                      (if truthy (getField body "timestamp") then getField body "timestamp"
                       else .strv now), o2, o3⟩ : SData) = d :=
                    VResult.valid.inj (Except.ok.inj hd)
                  subst hshape
                  exact ⟨optName_noTag _ _ e1, optCapped_noTag _ _ e2, optCapped_noTag _ _ e3⟩
    | undefined => simp [validateInput, hb, hE] at hd
    | nullv => simp [validateInput, hb, hE] at hd
    | boolv b => simp [validateInput, hb, hE] at hd
    | numv n => simp [validateInput, hb, hE] at hd
    | obj fields => simp [validateInput, hb, hE] at hd
  · have hb' : (truthy body && isObjectType body) = false := by
      cases h : (truthy body && isObjectType body) with
      | true => exact absurd h hb
      | false => rfl
    simp [validateInput, hb'] at hd

/-- Witness for C4 (amended), at the accepted payload with `name = "a<b>c"`:
the stored name is `"ac"` and it is tag-free. -/
theorem C4_witness :
    (∀ s, some "ac" = some s → noTag s.toList = true) ∧
    validateInput "T" (JSVal.obj [("name", .strv "a<b>c"), ("email", .strv "a@b.co"),
      ("consent", .boolv true)]) =
      .ok (.valid ⟨some "ac", "a@b.co", true, .strv "T", none, none⟩) :=
  ⟨(C4_amended_no_complete_tag "T"
      (JSVal.obj [("name", .strv "a<b>c"), ("email", .strv "a@b.co"),
        ("consent", .boolv true)])
      ⟨some "ac", "a@b.co", true, .strv "T", none, none⟩ rfl).1,
   rfl⟩

/-- Counterexample to C4 as stated: the accepted payload with `name = "1<2"`
stores the name verbatim — the stray `<` (a tag fragment) appears in the
stored value, because `stripHtml` only removes spans closed by a `>`. -/
theorem C4_counterexample :
    validateInput "T" (JSVal.obj [("name", .strv "1<2"), ("email", .strv "a@b.co"),
      ("consent", .boolv true)]) =
      .ok (.valid ⟨some "1<2", "a@b.co", true, .strv "T", none, none⟩)
    ∧ '<' ∈ "1<2".toList :=
  ⟨rfl, by decide⟩

/-! ### C1: the store contract -/

/-- Frame lemma: a failing Express `storeInJsonFile` leaves the file unchanged. -/
theorem storeInJsonFile_fail_frame (env : StoreEnv) (sg : Signup) (fs : FileContent)
    (h : (storeInJsonFile env sg fs).1 ≠ .success) :
    (storeInJsonFile env sg fs).2 = fs := by
  unfold storeInJsonFile at *
  by_cases hl : (List.range 10).any (fun i => !env.lockBusy i) = true
  · by_cases hm : env.mkdirFails = true
    · simp [hl, hm]
    · by_cases hw : env.writeFails = true
      · simp [hl, hm, hw]
      · exfalso
        simp [hl, hm, hw] at h
  · simp [hl]

/-- Success lemma: a successful Express `storeInJsonFile` rewrote the file to
the previous parsed array with the record appended. -/
theorem storeInJsonFile_success_eq (env : StoreEnv) (sg : Signup) (fs : FileContent)
    (h : (storeInJsonFile env sg fs).1 = .success) :
    (storeInJsonFile env sg fs).2 = .data (parseSignups fs ++ [sg]) := by
  unfold storeInJsonFile at *
  by_cases hl : (List.range 10).any (fun i => !env.lockBusy i) = true
  · by_cases hm : env.mkdirFails = true
    · simp [hl, hm] at h
    · by_cases hw : env.writeFails = true
      · simp [hl, hm, hw] at h
      · simp [hl, hm, hw]
  · simp [hl] at h

/-- C1 (amended): the Express `storeInJsonFile` satisfies the claimed contract
— on success the record is present in the file and every previously stored
record is still present, in order; on any failure (including the lock-timeout
error thrown when all 10 lock attempts fail) the file is unchanged and an
error propagates, so it never returns without the record being stored.  The
Netlify variant does not (see `C1_counterexample`). -/
theorem C1_amended_express_store_contract (env : StoreEnv) (sg : Signup)
    (fs : FileContent) :
    ((storeInJsonFile env sg fs).1 = .success →
       (storeInJsonFile env sg fs).2 = .data (parseSignups fs ++ [sg]) ∧
       ∀ prev, fs = .data prev →
         (storeInJsonFile env sg fs).2 = .data (prev ++ [sg]))
  ∧ ((storeInJsonFile env sg fs).1 ≠ .success →
       (storeInJsonFile env sg fs).2 = fs)
  ∧ ((∀ i, i < 10 → env.lockBusy i = true) →
       (storeInJsonFile env sg fs).1 = .lockTimeout) := by
  refine ⟨fun h => ⟨storeInJsonFile_success_eq env sg fs h, ?_⟩,
    storeInJsonFile_fail_frame env sg fs, fun hlock => ?_⟩
  · intro prev hprev
    subst hprev
    simpa [parseSignups] using storeInJsonFile_success_eq env sg (.data prev) h
  · have hl : (List.range 10).any (fun i => !env.lockBusy i) = false := by
      simp only [List.any_eq_false]
      intro i hi
      simp [hlock i (List.mem_range.mp hi)]
    unfold storeInJsonFile
    simp [hl]

/-- Witness for C1 (amended): with a free lock and no I/O failure, appending
to a one-record file succeeds and preserves the existing record. -/
theorem C1_witness :
    (storeInJsonFile envOk sgA (.data [sgA])).2 = .data [sgA, sgA] :=
  ((C1_amended_express_store_contract envOk sgA (.data [sgA])).1 rfl).2 [sgA] rfl

/-- Counterexample to C1 as stated: the Netlify `storeInJsonFile` swallows a
write failure — the call returns normally (its `catch` only logs), yet the
record is absent from the file, so the handler goes on to report success
without the record being stored. -/
theorem C1_counterexample :
    storeInJsonFileNetlify true sgA (.data []) = .data []
    ∧ sgA ∉ parseSignups (storeInJsonFileNetlify true sgA (.data [])) := by
  constructor
  · rfl
  · intro hmem
    simp [storeInJsonFileNetlify, parseSignups] at hmem

/-! ### C6: the notifier never propagates a failure -/

/-- C6: `sendEmail` never fails its caller — in dry-run mode it returns
success without transmitting, and with a credential configured every provider
error is caught and swallowed; consequently the Express subscribe handler's
response never depends on the email outcomes. -/
theorem C6_send_email_never_fails (cfg : Config) (o : Except String Unit) :
    (sendEmail cfg o).failed = false
  ∧ (cfg.isDryRun = true → (sendEmail cfg o).transmitted = false)
  ∧ (∀ senv o1 o2 o1' o2' ip id createdAt now body fs,
       expressSubscribe cfg senv o1 o2 ip id createdAt now body fs =
       expressSubscribe cfg senv o1' o2' ip id createdAt now body fs) := by
  refine ⟨?_, ?_, ?_⟩
  · unfold sendEmail
    by_cases hd : cfg.isDryRun = true
    · simp [hd]
    · cases h : (if cfg.emailProvider = "resend" then o
                 else .error "Email provider not implemented") with
      | ok u => simp [hd, h]
      | error e => simp [hd, h]
  · intro hd
    simp [sendEmail, hd]
  · intro senv o1 o2 o1' o2' ip id createdAt now body fs
    have hfail : ∀ o' : Except String Unit, (sendEmail cfg o').failed = false := by
      intro o'
      unfold sendEmail
      by_cases hd : cfg.isDryRun = true
      · simp [hd]
      · cases h : (if cfg.emailProvider = "resend" then o'
                   else .error "Email provider not implemented") with
        | ok u => simp [hd, h]
        | error e => simp [hd, h]
    unfold expressSubscribe
    cases validateInput now body with
    | error u => rfl
    | ok v =>
      cases v with
      | invalid m => rfl
      | valid d =>
        cases hst : storeSignupExpress cfg senv (mkSignup d id ip createdAt) fs with
        | mk r fs' =>
          cases r with
          | success => simp [hst, hfail]
          | lockTimeout => simp [hst]
          | ioError => simp [hst]

/-- Witness for C6: in dry-run mode the call reports no failure and no
transmission. -/
theorem C6_witness :
    (sendEmail ⟨"resend", true, "json"⟩ (.ok ())).failed = false ∧
    (sendEmail ⟨"resend", true, "json"⟩ (.ok ())).transmitted = false :=
  ⟨(C6_send_email_never_fails ⟨"resend", true, "json"⟩ (.ok ())).1,
   (C6_send_email_never_fails ⟨"resend", true, "json"⟩ (.ok ())).2.1 rfl⟩

/-! ### C9 and C10: the client scripts -/

/-- A literal-dot tail match is also a wildcard-dot tail match ( `.` is not a
line terminator). -/
theorem tailMatch_dot_imp_wild (r : List Char)
    (h : tailMatch (fun c => c == '.') r = true) :
    tailMatch (fun c => !isLineTerm c) r = true := by
  simp only [tailMatch, List.any_eq_true] at h ⊢
  obtain ⟨i, hi, hcond⟩ := h
  refine ⟨i, hi, ?_⟩
  simp only [Bool.and_eq_true] at hcond ⊢
  obtain ⟨⟨⟨⟨h1, h2⟩, h3⟩, h4⟩, h5⟩ := hcond
  refine ⟨⟨⟨⟨h1, h2⟩, ?_⟩, h4⟩, h5⟩
  cases hg : r.get? i with
  | none => rw [hg] at h3; exact absurd h3 (by simp)
  | some c =>
    rw [hg] at h3
    have hcdot : c = '.' := by simpa using h3
    subst hcdot
    decide

/-- C10 (amended): the two client email predicates are not extensionally
equal — `main.js`'s unescaped dot accepts strings the other script rejects
(see `C10_counterexample`) — but the inclusion holds in one direction: every
string accepted by the escaped-dot regex of the second client script is
accepted by `main.js`'s unescaped-dot regex. -/
theorem C10_amended_escaped_implies_unescaped (s : String)
    (h : emailOk s = true) : isValidEmail s = true := by
  unfold emailOk at h
  unfold isValidEmail
  cases hsp : splitAtFirstAt s with
  | none => rw [hsp] at h; exact absurd h (by simp)
  | some p =>
    obtain ⟨pre, rest⟩ := p
    rw [hsp] at h
    simp only [Bool.and_eq_true] at h ⊢
    exact ⟨⟨h.1.1, h.1.2⟩, tailMatch_dot_imp_wild rest h.2⟩

/-- Witness for C10 (amended) at `"a@b.c"`, accepted by both predicates. -/
theorem C10_witness : emailOk "a@b.c" = true ∧ isValidEmail "a@b.c" = true :=
  ⟨by decide, C10_amended_escaped_implies_unescaped "a@b.c" (by decide)⟩

/-- Counterexample to C10 as stated: `"a@bcd"` has no dot, yet `main.js`'s
unescaped `.` matches the character `c`, so the two predicates disagree. -/
theorem C10_counterexample :
    isValidEmail "a@bcd" = true ∧ emailOk "a@bcd" = false := by decide

/-- C9: whenever the (trimmed) email passes the `main.js` client regex and the
consent box is checked, the submit handler's first three actions are: show the
success text, scroll it into view, start the webhook fetch — for every
possible fetch outcome, including one that never settles.  The user-visible
success message therefore precedes the network call unconditionally. -/
theorem C9_success_text_before_fetch (emailRaw : String) (consent : Bool)
    (o : FetchOutcome) (he : isValidEmail (jsTrim emailRaw) = true)
    (hc : consent = true) :
    (clientSubmit emailRaw consent o).take 3 =
      [.statusMsg clientSuccessText, .scrollStatus, .fetchStart] := by
  subst hc
  have hurl : ¬ (webhookUrl = "") := by decide
  simp [clientSubmit, he, hurl]

/-- Witness for C9 at email `"a@b.c"` with a never-settling fetch. -/
theorem C9_witness :
    (clientSubmit "a@b.c" true FetchOutcome.noResponse).take 3 =
      [.statusMsg clientSuccessText, .scrollStatus, .fetchStart] :=
  C9_success_text_before_fetch "a@b.c" true FetchOutcome.noResponse (by decide) rfl

/-! ### C8: the Ada scenario and email normalization -/

/-- C8: posting the Ada payload stores the record with email
`"ada@example.com"` and name `"Ada"` and responds with the success message;
in general, every accepted payload's stored email is the trimmed, lower-cased
input email. -/
theorem C8_ada_scenario :
    (∀ now : String, validateInput now adaBody =
       .ok (.valid ⟨some "Ada", "ada@example.com", true, .strv now, none, none⟩))
  ∧ (expressSubscribe cfgDry envOk (.ok ()) (.ok ()) "1.2.3.4" "id1" "CT" "T0"
       adaBody (.data []) = (⟨200, some (true, subscribeOkMsg), 1⟩, .data [sgA]))
  ∧ (∀ now body r, validateInput now body = .ok (.valid r) →
       ∃ s, getField body "email" = .strv s ∧ r.email = jsToLower (jsTrim s)) := by
  refine ⟨fun now => rfl, rfl, ?_⟩
  intro now body r hd
  by_cases hb : (truthy body && isObjectType body) = true
  · cases hE : getField body "email" with
    | strv s =>
      by_cases hs : s = ""
      · subst hs; simp [validateInput, hb, hE] at hd
      · cases hreg : emailRegexTest (jsToLower (jsTrim s)) with
        | false => simp [validateInput, hb, hE, hs, hreg] at hd
        | true =>
          cases hc : truthy (getField body "consent") with
          | false => simp [validateInput, hb, hE, hs, hreg, hc] at hd
          | true =>
            cases e1 : optName (getField body "name") with
            | error u => simp [validateInput, hb, hE, hs, hreg, hc, e1] at hd
            | ok o1 =>
              cases e2 : optCapped (getField body "userAgent") with
              | error u => simp [validateInput, hb, hE, hs, hreg, hc, e1, e2] at hd
              | ok o2 =>
                cases e3 : optCapped (getField body "referrer") with
                | error u => simp [validateInput, hb, hE, hs, hreg, hc, e1, e2, e3] at hd
                | ok o3 =>
                  simp only [validateInput, hb, hE, hs, hreg, hc, e1, e2, e3,
                    Bool.and_self, Bool.not_true, Bool.false_eq_true, if_false,
                    ite_false, ite_true] at hd
                  have hshape : (⟨o1, jsToLower (jsTrim s), true,
                      (if truthy (getField body "timestamp") then getField body "timestamp"
                       else .strv now), o2, o3⟩ : SData) = r :=
                    VResult.valid.inj (Except.ok.inj hd)
                  subst hshape
                  exact ⟨s, rfl, rfl⟩
    | undefined => simp [validateInput, hb, hE] at hd
    | nullv => simp [validateInput, hb, hE] at hd
    | boolv b => simp [validateInput, hb, hE] at hd
    | numv n => simp [validateInput, hb, hE] at hd
    | obj fields => simp [validateInput, hb, hE] at hd
  · have hb' : (truthy body && isObjectType body) = false := by
      cases h : (truthy body && isObjectType body) with
      | true => exact absurd h hb
      | false => rfl
    simp [validateInput, hb'] at hd

/-- Witness for C8's general normalization clause, at the Ada payload. -/
theorem C8_witness :
    ∃ s, getField adaBody "email" = .strv s ∧
      (SData.mk (some "Ada") "ada@example.com" true (.strv "T0") none none).email =
        jsToLower (jsTrim s) :=
  C8_ada_scenario.2.2 "T0" adaBody
    ⟨some "Ada", "ada@example.com", true, .strv "T0", none, none⟩
    (C8_ada_scenario.1 "T0")

/-! ### C7: failures before the store have no side effects; storage failures
surface generically -/

/-- C7: in the Netlify handler, a rate-limit rejection, a body-parse failure
or a validation rejection each return the corresponding 4xx rejection with the
file untouched and no email call; in the Express handler, a validation
rejection does the same, and a storage failure (of any kind) yields the
constant generic 500 with `success: false`, the file untouched and no email
call — no internal error detail reaches the caller. -/
theorem C7_failure_handling (cfg : Config) (writeFails : Bool)
    (o1 o2 : Except String Unit) (ip : String) (now : Int)
    (nowIso id createdAt : String) (rl : RLState) (fs : FileContent) :
    (∀ rawBody, (checkRateLimit now ip rl).1 = false →
       netlifyHandler cfg writeFails o1 o2 "POST" ip now nowIso id createdAt rawBody rl fs =
         (⟨429, some (false, rateLimitMsg), 0⟩, (checkRateLimit now ip rl).2, fs))
  ∧ ((checkRateLimit now ip rl).1 = true →
       netlifyHandler cfg writeFails o1 o2 "POST" ip now nowIso id createdAt none rl fs =
         (⟨400, some (false, "Invalid JSON in request body"), 0⟩,
          (checkRateLimit now ip rl).2, fs))
  ∧ (∀ body m, (checkRateLimit now ip rl).1 = true →
       validateInput nowIso body = .ok (.invalid m) →
       netlifyHandler cfg writeFails o1 o2 "POST" ip now nowIso id createdAt
           (some body) rl fs =
         (⟨400, some (false, m), 0⟩, (checkRateLimit now ip rl).2, fs))
  ∧ (∀ senv body m (eo1 eo2 : Except String Unit) nowS,
       validateInput nowS body = .ok (.invalid m) →
       expressSubscribe cfg senv eo1 eo2 ip id createdAt nowS body fs =
         (⟨400, some (false, m), 0⟩, fs))
  ∧ (∀ senv body d nowS (eo1 eo2 : Except String Unit),
       cfg.storageMode = "json" →
       validateInput nowS body = .ok (.valid d) →
       (storeInJsonFile senv (mkSignup d id ip createdAt) fs).1 ≠ .success →
       expressSubscribe cfg senv eo1 eo2 ip id createdAt nowS body fs =
         (⟨500, some (false, genericErrorMsg), 0⟩, fs)) := by
  refine ⟨?_, ?_, ?_, ?_, ?_⟩
  · intro rawBody h
    simp [netlifyHandler, h]
  · intro h
    simp [netlifyHandler, h]
  · intro body m h hv
    simp [netlifyHandler, h, hv]
  · intro senv body m eo1 eo2 nowS hv
    simp [expressSubscribe, hv]
  · intro senv body d nowS eo1 eo2 hm hv hfail
    have hframe : (storeInJsonFile senv (mkSignup d id ip createdAt) fs).2 = fs :=
      storeInJsonFile_fail_frame senv (mkSignup d id ip createdAt) fs hfail
    rcases hst : storeInJsonFile senv (mkSignup d id ip createdAt) fs with ⟨r, fs2⟩
    rw [hst] at hframe hfail
    simp only at hframe hfail
    subst hframe
    cases r with
    | success => exact absurd rfl hfail
    | lockTimeout => simp [expressSubscribe, hv, storeSignupExpress, hm, hst]
    | ioError => simp [expressSubscribe, hv, storeSignupExpress, hm, hst]

/-- Witness for C7: a concrete validation rejection (empty body object, so
"Email is required") returns 400 with the store untouched and no email call. -/
theorem C7_witness :
    expressSubscribe cfgDry envOk (.ok ()) (.ok ()) "1.2.3.4" "id1" "CT" "T0"
      (JSVal.obj []) (.data [sgA]) =
      (⟨400, some (false, "Email is required"), 0⟩, .data [sgA]) :=
  (C7_failure_handling cfgDry false (.ok ()) (.ok ()) "1.2.3.4" 0 "T0" "id1" "CT"
      [] (.data [sgA])).2.2.2.1 envOk (JSVal.obj []) "Email is required"
    (.ok ()) (.ok ()) "T0" rfl

/-! ### C3: the rate limiter -/

/-- Every entry surviving the cleaning loop holds an already-filtered list. -/
theorem pruneRL_entry_shape (ws : Int) (st : RLState) :
    ∀ q ∈ pruneRL ws st, ∃ w : List Int, q.2 = w.filter (fun t => ws < t) := by
  intro q hq
  have hq' := List.mem_of_mem_filter hq
  obtain ⟨p, _, hp⟩ := List.mem_map.mp hq'
  exact ⟨p.2, by rw [← hp]⟩

/-- The post-prune lookup is already within the window, so the second filter
in `checkRateLimit` is the identity. -/
theorem rlLookup_pruned_filter (ws : Int) (st : RLState) (ip : String) :
    (rlLookup (pruneRL ws st) ip).filter (fun t => ws < t) =
      rlLookup (pruneRL ws st) ip := by
  cases hf : (pruneRL ws st).find? (fun p => p.1 == ip) with
  | none => simp [rlLookup, hf]
  | some q =>
    obtain ⟨w, hw⟩ := pruneRL_entry_shape ws st q (List.mem_of_find?_eq_some hf)
    simp only [rlLookup, hf]
    rw [hw]
    refine List.filter_eq_self.mpr ?_
    intro a ha
    exact (List.mem_filter.mp ha).2

/-- One accepted call on a single-address map whose recorded timestamps are all
inside the window: the call accepts and appends `now`. -/
theorem checkRateLimit_step_allow (now : Int) (ip : String) (ts : List Int)
    (hall : ∀ t ∈ ts, now - windowMs < t) (hlen : ts.length < rateLimitMax) :
    checkRateLimit now ip [(ip, ts)] = (true, [(ip, ts ++ [now])]) := by
  have hfilter : ts.filter (fun t => now - windowMs < t) = ts :=
    List.filter_eq_self.mpr (fun a ha => by simpa using hall a ha)
  have hif : ¬ (rateLimitMax ≤ ts.length) := Nat.not_le.mpr hlen
  by_cases hts : ts = []
  · subst hts
    simp [checkRateLimit, pruneRL, rlLookup, setAssoc, rateLimitMax]
  · have hne : ts.isEmpty = false := by
      cases ts with
      | nil => exact absurd rfl hts
      | cons a l => rfl
    simp [checkRateLimit, pruneRL, rlLookup, setAssoc, hfilter, hne, hif]

/-- One rejected call: with `rateLimitMax` in-window timestamps already
recorded, the call rejects and records nothing. -/
theorem checkRateLimit_step_reject (now : Int) (ip : String) (ts : List Int)
    (hall : ∀ t ∈ ts, now - windowMs < t) (hlen : rateLimitMax ≤ ts.length) :
    checkRateLimit now ip [(ip, ts)] = (false, [(ip, ts)]) := by
  have hfilter : ts.filter (fun t => now - windowMs < t) = ts :=
    List.filter_eq_self.mpr (fun a ha => by simpa using hall a ha)
  have hts : ts ≠ [] := by
    intro h
    subst h
    simp [rateLimitMax] at hlen
  have hne : ts.isEmpty = false := by
    cases ts with
    | nil => exact absurd rfl hts
    | cons a l => rfl
  simp [checkRateLimit, pruneRL, rlLookup, hfilter, hne, hlen]

/-- C3: `checkRateLimit` first prunes every address's timestamps to the
trailing 15-minute window, rejects exactly when the remaining count for the
caller's address is at least 5 and otherwise records `now` and accepts; a
rejection makes the handler answer 429 "Too many requests. Please try again
later."; and six requests from one address within a single 15-minute window
see the first five accepted and the sixth rejected. -/
theorem C3_rate_limiter :
    (∀ (now : Int) (ip : String) (st : RLState),
       checkRateLimit now ip st =
         (if rateLimitMax ≤ (rlLookup (pruneRL (now - windowMs) st) ip).length
          then (false, pruneRL (now - windowMs) st)
          else (true, setAssoc (pruneRL (now - windowMs) st) ip
                 (rlLookup (pruneRL (now - windowMs) st) ip ++ [now]))))
  ∧ (∀ cfg writeFails (o1 o2 : Except String Unit) ip now nowIso id createdAt
       rawBody rl fs,
       (checkRateLimit now ip rl).1 = false →
       (netlifyHandler cfg writeFails o1 o2 "POST" ip now nowIso id createdAt
           rawBody rl fs).1 =
         ⟨429, some (false, "Too many requests. Please try again later."), 0⟩)
  ∧ (∀ (ip : String) (t1 t2 t3 t4 t5 t6 : Int),
       t1 ≤ t2 → t2 ≤ t3 → t3 ≤ t4 → t4 ≤ t5 → t5 ≤ t6 → t6 - t1 < windowMs →
       (runAllow ip [t1, t2, t3, t4, t5, t6] []).1 =
         [true, true, true, true, true, false]) := by
  refine ⟨?_, ?_, ?_⟩
  · intro now ip st
    unfold checkRateLimit
    simp only [rlLookup_pruned_filter]
  · intro cfg writeFails o1 o2 ip now nowIso id createdAt rawBody rl fs h
    simp [netlifyHandler, h, rateLimitMsg]
  · intro ip t1 t2 t3 t4 t5 t6 h12 h23 h34 h45 h56 hW
    have hWv : windowMs = 900000 := rfl
    have h1 : checkRateLimit t1 ip [] = (true, [(ip, [t1])]) := by
      simp [checkRateLimit, pruneRL, rlLookup, setAssoc, rateLimitMax]
    have h2 : checkRateLimit t2 ip [(ip, [t1])] = (true, [(ip, [t1, t2])]) := by
      simpa using checkRateLimit_step_allow t2 ip [t1]
        (by intro t ht; simp at ht; omega) (by simp [rateLimitMax])
    have h3 : checkRateLimit t3 ip [(ip, [t1, t2])] = (true, [(ip, [t1, t2, t3])]) := by
      simpa using checkRateLimit_step_allow t3 ip [t1, t2]
        (by intro t ht; simp at ht; rcases ht with h | h <;> omega)
        (by simp [rateLimitMax])
    have h4 : checkRateLimit t4 ip [(ip, [t1, t2, t3])] =
        (true, [(ip, [t1, t2, t3, t4])]) := by
      simpa using checkRateLimit_step_allow t4 ip [t1, t2, t3]
        (by intro t ht; simp at ht; rcases ht with h | h | h <;> omega)
        (by simp [rateLimitMax])
    have h5 : checkRateLimit t5 ip [(ip, [t1, t2, t3, t4])] =
        (true, [(ip, [t1, t2, t3, t4, t5])]) := by
      simpa using checkRateLimit_step_allow t5 ip [t1, t2, t3, t4]
        (by intro t ht; simp at ht; rcases ht with h | h | h | h <;> omega)
        (by simp [rateLimitMax])
    have h6 : checkRateLimit t6 ip [(ip, [t1, t2, t3, t4, t5])] =
        (false, [(ip, [t1, t2, t3, t4, t5])]) := by
      exact checkRateLimit_step_reject t6 ip [t1, t2, t3, t4, t5]
        (by intro t ht; simp at ht; rcases ht with h | h | h | h | h <;> omega)
        (by simp [rateLimitMax])
    simp [runAllow, h1, h2, h3, h4, h5, h6]

/-- Witness for C3's six-request scenario at concrete times 0..5 ms. -/
theorem C3_witness :
    (runAllow "1.2.3.4" [0, 1, 2, 3, 4, 5] []).1 =
      [true, true, true, true, true, false] :=
  C3_rate_limiter.2.2 "1.2.3.4" 0 1 2 3 4 5 (by decide) (by decide) (by decide)
    (by decide) (by decide) (by decide)

end Revanx
